import Mathlib

/-!
Verification development for the LemonTV storage and authentication layer.

The embedding models the D1 (SQLite-backed) storage class `D1Storage`
(play records, favorites, search history, skip configs, machine codes,
conversations, messages, friends, friend requests), the SQL schema, and the
login POST handler.  Strings are Lean `String`s; rows are structures whose
fields follow the SQL schema; tables are lists of rows; a D1 `batch` is a
list of statement effects applied as one unit.  The boolean `ok` parameter
threaded through storage operations models whether the underlying storage
call succeeds (the `catch` behaviour of each method is translated from the
source).
-/

namespace LemonTV

/-- ASCII upper casing, as used by SQLite `LIKE` (ASCII case folding) and by
the handler's `toUpperCase` comparison on machine codes (codes are ASCII). -/
def asciiUpper (c : Char) : Char :=
  if 'a' ≤ c ∧ c ≤ 'z' then Char.ofNat (c.toNat - 32) else c

/-- Character comparison used by SQLite `LIKE`: ASCII case-insensitive. -/
def sqlCharEq (c d : Char) : Bool :=
  asciiUpper c = asciiUpper d

/-- SQLite `LIKE` pattern matching: `%` matches any (possibly empty) run of
characters, `_` matches exactly one character, any other pattern character
matches one character ASCII case-insensitively.  Structural recursion on the
pattern: the `%` case tries every split of the remaining string. -/
def likeMatch : List Char → List Char → Bool
  | [], s => s.isEmpty
  | c :: p, s =>
    if c = '%' then
      (List.range (s.length + 1)).any fun k => likeMatch p (s.drop k)
    else
      match s with
      | [] => false
      | d :: s' => (if c = '_' then true else sqlCharEq c d) && likeMatch p s'

/-- One character of `JSON.stringify` string escaping; only the quote and
backslash escapes matter for handles (control characters do not occur). -/
def jsonEscapeChar (c : Char) : List Char :=
  if c = '"' then ['\\', '"'] else if c = '\\' then ['\\', '\\'] else [c]

/-- `JSON.stringify` escaping of a string body. -/
def jsonEscape : List Char → List Char
  | [] => []
  | c :: cs => jsonEscapeChar c ++ jsonEscape cs

/-- A JSON string literal: quoted, escaped body. -/
def jsonQuote (s : String) : List Char :=
  '"' :: (jsonEscape s.data ++ ['"'])

/-- Comma-separated JSON string literals (the body of a JSON array). -/
def jsonArrAux : List String → List Char
  | [] => []
  | [p] => jsonQuote p
  | p :: rest => jsonQuote p ++ (',' :: jsonArrAux rest)

/-- `JSON.stringify` of an array of strings, as the `participants` column
stores it. -/
def jsonArr (l : List String) : List Char :=
  '[' :: (jsonArrAux l ++ [']'])

/-- JavaScript code-unit comparison of characters (`<` on strings). -/
def charLtB (c d : Char) : Bool := c.toNat < d.toNat

/-- JavaScript default string comparison: lexicographic on code units. -/
def strLtB : List Char → List Char → Bool
  | [], [] => false
  | [], _ :: _ => true
  | _ :: _, [] => false
  | c :: a, d :: b => if c = d then strLtB a b else charLtB c d

/-- `[a, b].sort()` in JavaScript: the pair ordered by code-unit comparison
(a stable sort of two elements). -/
def jsSortPair (a b : String) : String × String :=
  if strLtB b.data a.data then (b, a) else (a, b)

/-- Storage-layer failure (a rejected promise from the D1 collaborator). -/
inductive StorageErr where
  | failure
deriving DecidableEq

/- Row types follow the columns of the SQL schema.  Media-content columns of
play records and favorites (title, cover, year, ...) are payload never
consulted by the operations under verification and are elided. -/

/-- A row of `users`. -/
structure UserRow where
  username : String
  password : String
  avatar : Option String := none
  created_at : Nat := 0
deriving DecidableEq

/-- A row of `play_records` (key columns). -/
structure PlayRecordRow where
  username : String
  key : String
  save_time : Nat := 0
deriving DecidableEq

/-- A row of `favorites` (key columns). -/
structure FavoriteRow where
  username : String
  key : String
  save_time : Nat := 0
deriving DecidableEq

/-- A row of `search_history`. -/
structure SearchHistoryRow where
  username : String
  keyword : String
  created_at : Nat := 0
deriving DecidableEq

/-- A row of `skip_configs` (key columns). -/
structure SkipConfigRow where
  username : String
  source : String
  id_video : String
deriving DecidableEq

/-- A row of `danmus` (key columns). -/
structure DanmuRow where
  id : String
  video_id : String
  username : String
deriving DecidableEq

/-- A row of `machine_codes`. -/
structure MachineCodeRow where
  username : String
  machine_code : String
  device_info : String := ""
  bind_time : Nat := 0
deriving DecidableEq

/-- A row of `conversations`.  The `participants` column stores
`JSON.stringify` of a list of handles; the row keeps the list and the
serialization `jsonArr participants` is applied wherever the SQL reads the
column text.  `ctype` is the `type` column. -/
structure ConversationRow where
  id : String
  name : String
  participants : List String
  ctype : String := "direct"
  created_at : Nat := 0
  updated_at : Nat := 0
deriving DecidableEq

/-- A row of `messages` (`is_read` stores 0/1, modelled as `Bool`). -/
structure MessageRow where
  id : String
  conversation_id : String
  sender_id : String
  sender_name : String
  content : String := ""
  message_type : String := "text"
  timestamp : Nat := 0
  is_read : Bool := false
deriving DecidableEq

/-- A row of `friends`. -/
structure FriendRow where
  user1 : String
  user2 : String
  status : String := "accepted"
  added_at : Nat := 0
deriving DecidableEq

/-- A row of `friend_requests`. -/
structure FriendRequestRow where
  id : String
  from_user : String
  to_user : String
  message : Option String := none
  status : String := "pending"
  created_at : Nat := 0
  updated_at : Nat := 0
deriving DecidableEq

/-- The D1 database state: one list of rows per table of the schema. -/
structure DB where
  users : List UserRow := []
  play_records : List PlayRecordRow := []
  favorites : List FavoriteRow := []
  search_history : List SearchHistoryRow := []
  skip_configs : List SkipConfigRow := []
  danmus : List DanmuRow := []
  machine_codes : List MachineCodeRow := []
  conversations : List ConversationRow := []
  messages : List MessageRow := []
  friends : List FriendRow := []
  friend_requests : List FriendRequestRow := []
deriving DecidableEq

/-- The empty database. -/
def emptyDB : DB := {}

/-- The `LIKE` bind pattern of `getConversations` and of the conversation
statement of `deleteUser`: the raw, unescaped handle between quotes and
percent wildcards. -/
def convPattern (u : String) : List Char :=
  '%' :: (('"' :: (u.data ++ ['"'])) ++ ['%'])

/-- Insertion into a descending-ordered list by a numeric key (models the
engine's `ORDER BY key DESC`). -/
def insertByDesc (key : α → Nat) (x : α) : List α → List α
  | [] => [x]
  | y :: ys => if key y < key x then x :: y :: ys else y :: insertByDesc key x ys

/-- Sort a table descending by a numeric key (`ORDER BY key DESC`). -/
def sortByDesc (key : α → Nat) : List α → List α
  | [] => []
  | x :: xs => insertByDesc key x (sortByDesc key xs)

/-- A prepared statement of a batch, by its effect on the database. -/
abbrev Stmt := DB → DB

/-- `db.batch(statements)`: applied as one unit.  `ok` is the collaborator's
verdict: on success every statement is applied in order, on failure none is
(no partial application is possible). -/
def execBatch (stmts : List Stmt) (db : DB) (ok : Bool) : DB :=
  if ok then stmts.foldl (fun d f => f d) db else db

/-- `D1Storage.checkUserExist`: `SELECT 1 FROM users WHERE username = ?`,
then `result !== null`. -/
def checkUserExist (db : DB) (u : String) : Bool :=
  db.users.any (·.username == u)

/-- `D1Storage.verifyUser`: `SELECT password FROM users WHERE username = ?`,
then `result?.password === password` (missing row compares false). -/
def verifyUser (db : DB) (u p : String) : Bool :=
  match db.users.find? (·.username == u) with
  | some r => r.password == p
  | none => false

/-- `D1Storage.getUserAvatar`: `SELECT avatar FROM users WHERE username = ?`
returning the `avatar` column (null when the row or column is missing); a
storage failure is logged and RETHROWN (`throw err`). -/
def getUserAvatar (ok : Bool) (db : DB) (u : String) :
    Except StorageErr (Option String) :=
  if ok then .ok ((db.users.find? (·.username == u)).bind (·.avatar))
  else .error .failure

/-- `D1Storage.getUserMachineCode`: `SELECT machine_code FROM machine_codes
WHERE username = ?`; a storage failure is caught and returns null. -/
def getUserMachineCode (ok : Bool) (db : DB) (u : String) :
    Except StorageErr (Option String) :=
  if ok then .ok ((db.machine_codes.find? (·.username == u)).map (·.machine_code))
  else .ok none

/-- `D1Storage.isMachineCodeBound`: `SELECT username FROM machine_codes WHERE
machine_code = ?`; a storage failure is caught and returns null. -/
def isMachineCodeBound (ok : Bool) (db : DB) (c : String) :
    Except StorageErr (Option String) :=
  if ok then .ok ((db.machine_codes.find? (·.machine_code == c)).map (·.username))
  else .ok none

/-- `D1Storage.setUserMachineCode`: `INSERT OR REPLACE INTO machine_codes
(username, machine_code, device_info, bind_time) VALUES (?, ?, ?, ?)`.
SQLite `REPLACE` first deletes every pre-existing row that conflicts with
any uniqueness constraint — here the `username` primary key AND the
`machine_code UNIQUE` constraint — then inserts the new row. -/
def setUserMachineCode (db : DB) (u c info : String) (t : Nat) : DB :=
  { db with machine_codes :=
      ⟨u, c, info, t⟩ ::
        db.machine_codes.filter fun r => !(r.username == u) && !(r.machine_code == c) }

/-- The `Friend` shape returned to callers (from `types.ts`). -/
structure Friend where
  id : String
  username : String
  status : String := "offline"
  added_at : Nat := 0
deriving DecidableEq

/-- `D1Storage.getFriends`: `SELECT * FROM friends WHERE (user1 = ? OR
user2 = ?) AND status = 'accepted'`, mapping each row to the other endpoint;
a storage failure is caught and returns the empty list. -/
def getFriends (ok : Bool) (db : DB) (u : String) :
    Except StorageErr (List Friend) :=
  if ok then
    .ok (((db.friends.filter fun r =>
        (r.user1 == u || r.user2 == u) && r.status == "accepted").map fun r =>
      let fu := if r.user1 == u then r.user2 else r.user1
      { id := fu, username := fu, status := "offline", added_at := r.added_at }))
  else .ok []

/-- `D1Storage.addFriend`: the two handles are sorted (JavaScript `sort()`,
code-unit order), then `INSERT OR REPLACE INTO friends (user1, user2,
status, added_at) VALUES (?, ?, 'accepted', ?)`; the primary key is
`(user1, user2)`. -/
def addFriend (db : DB) (userName : String) (friend : Friend) : DB :=
  let p := jsSortPair userName friend.username
  { db with friends :=
      ⟨p.1, p.2, "accepted", friend.added_at⟩ ::
        db.friends.filter fun r => !(r.user1 == p.1 && r.user2 == p.2) }

/-- `D1Storage.getConversations`: `SELECT * FROM conversations WHERE
participants LIKE ? ORDER BY updated_at DESC` bound to the pattern
`%"user"%`; a storage failure is caught and returns the empty list. -/
def getConversations (ok : Bool) (db : DB) (u : String) :
    Except StorageErr (List ConversationRow) :=
  if ok then
    .ok (sortByDesc (·.updated_at)
      (db.conversations.filter fun c => likeMatch (convPattern u) (jsonArr c.participants)))
  else .ok []

/-- `D1Storage.getConversation`: `SELECT * FROM conversations WHERE id = ?`;
a missing row and a caught storage failure both yield null. -/
def getConversation (ok : Bool) (db : DB) (cid : String) :
    Except StorageErr (Option ConversationRow) :=
  if ok then .ok (db.conversations.find? (·.id == cid))
  else .ok none

/-- `D1Storage.getMessages`: newest-first page (`ORDER BY timestamp DESC
LIMIT ? OFFSET ?`) reversed to chronological order before returning; a
storage failure is caught and returns the empty list. -/
def getMessages (ok : Bool) (db : DB) (cid : String) (limit offset : Nat) :
    Except StorageErr (List MessageRow) :=
  if ok then
    .ok ((((sortByDesc (·.timestamp)
      (db.messages.filter (·.conversation_id == cid))).drop offset).take limit).reverse)
  else .ok []

/-- `D1Storage.searchUsers`: `SELECT username FROM users WHERE username
LIKE ? LIMIT 20` bound to `%query%`; a storage failure is caught and
returns the empty list. -/
def searchUsers (ok : Bool) (db : DB) (q : String) :
    Except StorageErr (List Friend) :=
  if ok then
    .ok (((db.users.filter fun r =>
        likeMatch ('%' :: (q.data ++ ['%'])) r.username.data).take 20).map fun r =>
      { id := r.username, username := r.username, status := "offline", added_at := 0 })
  else .ok []

/-- The two statements of `D1Storage.deleteConversation`, issued as one
`db.batch`: delete the conversation's messages, then the conversation row. -/
def deleteConversationStmts (cid : String) : List Stmt :=
  [fun db => { db with messages := db.messages.filter fun m => !(m.conversation_id == cid) },
   fun db => { db with conversations := db.conversations.filter fun c => !(c.id == cid) }]

/-- `D1Storage.deleteConversation`: the batch above, all-or-nothing. -/
def deleteConversation (cid : String) (db : DB) (ok : Bool) : DB :=
  execBatch (deleteConversationStmts cid) db ok

/-- The eleven statements of `D1Storage.deleteUser`, issued as one
`db.batch`: the account row, all per-user media data, the device binding,
conversations matched by the `LIKE` participants pattern, messages with the
handle as `sender_name`, and friend edges / requests naming the handle in
either role. -/
def deleteUserStmts (u : String) : List Stmt :=
  [fun db => { db with users := db.users.filter fun r => !(r.username == u) },
   fun db => { db with play_records := db.play_records.filter fun r => !(r.username == u) },
   fun db => { db with favorites := db.favorites.filter fun r => !(r.username == u) },
   fun db => { db with search_history := db.search_history.filter fun r => !(r.username == u) },
   fun db => { db with skip_configs := db.skip_configs.filter fun r => !(r.username == u) },
   fun db => { db with danmus := db.danmus.filter fun r => !(r.username == u) },
   fun db => { db with machine_codes := db.machine_codes.filter fun r => !(r.username == u) },
   fun db => { db with conversations := db.conversations.filter fun c =>
      !(likeMatch (convPattern u) (jsonArr c.participants)) },
   fun db => { db with messages := db.messages.filter fun m => !(m.sender_name == u) },
   fun db => { db with friends := db.friends.filter fun r =>
      !(r.user1 == u || r.user2 == u) },
   fun db => { db with friend_requests := db.friend_requests.filter fun r =>
      !(r.from_user == u || r.to_user == u) }]

/-- `D1Storage.deleteUser`: the batch above, all-or-nothing. -/
def deleteUser (u : String) (db : DB) (ok : Bool) : DB :=
  execBatch (deleteUserStmts u) db ok

/-- The SQL text of `D1Storage.saveMessage`, verbatim: eight column names but
only six value placeholders. -/
def saveMessageSQL : String :=
  "INSERT INTO messages (id, conversation_id, sender_id, sender_name, content, message_type, timestamp, is_read) VALUES (?, ?, ?, ?, ?, ?)"

/-- Number of `?` placeholders in a SQL text. -/
def placeholderCount (sql : String) : Nat :=
  sql.data.countP (· == '?')

/-- The column list named by the `saveMessage` INSERT. -/
def messagesInsertColumns : List String :=
  ["id", "conversation_id", "sender_id", "sender_name", "content",
   "message_type", "timestamp", "is_read"]

/-- The values bound by `saveMessage`'s `.bind(...)` call, in order. -/
def saveMessageBinds (m : MessageRow) : List String :=
  [m.id, m.conversation_id, m.sender_id, m.sender_name, m.content,
   m.message_type, toString m.timestamp, if m.is_read then "1" else "0"]

/-- `D1Storage.saveMessage`: the INSERT only executes when the prepared
statement is well-formed — the placeholder count must equal the column
count; otherwise the engine rejects the statement and the caught error is
rethrown (`throw err`). -/
def saveMessage (db : DB) (m : MessageRow) : Except StorageErr DB :=
  if placeholderCount saveMessageSQL = messagesInsertColumns.length then
    .ok { db with messages := m :: db.messages }
  else .error .failure

/-- JavaScript truthiness of an optional string: `undefined` and the empty
string are falsy. -/
def isTruthyO : Option String → Bool
  | none => false
  | some s => !(s == "")

/-- `s || dflt` on an optional string (JavaScript `||`). -/
def jsOrStr (a : Option String) (dflt : String) : String :=
  match a with
  | some s => if s == "" then dflt else s
  | none => dflt

/-- JavaScript `toUpperCase` restricted to ASCII (machine codes are ASCII). -/
def jsUpper (s : String) : String := ⟨s.data.map asciiUpper⟩

/-- The deployment environment consulted by the login handler:
`process.env.USERNAME` and `process.env.PASSWORD` (either may be unset). -/
structure Env where
  envUsername : Option String := none
  envPassword : Option String := none
deriving DecidableEq

/-- A user entry of `config.UserConfig.Users` (the admin config
collaborator): handle, optional role tag, ban flag. -/
structure ConfUser where
  username : String
  role : Option String := none
  banned : Bool := false
deriving DecidableEq

/-- The outward result of the login POST handler: each constructor is one
distinct response (status code and body shape).  `invalidInput` is 400,
`unauthorized` is 401 with its message, `codeRequired` and `codeMismatch`
are 403, `codeTaken` is 409 naming the conflicting owner, `ok` is the 200
response (role issued in the cookie, the `machineCodeBound` flag and
`username` of the body when present). -/
inductive LoginOutcome where
  | invalidInput (msg : String)
  | unauthorized (msg : String)
  | codeRequired
  | codeMismatch
  | codeTaken (owner : String)
  | ok (role : String) (machineCodeBound : Option Bool) (username : Option String)
deriving DecidableEq

/-- The machine code currently bound to a handle (the value the handler
reads via `db.getUserMachineCode`). -/
def boundCodeOf (db : DB) (u : String) : Option String :=
  (db.machine_codes.find? (·.username == u)).map (·.machine_code)

/-- Owner auto-provisioning on successful owner login: if no account row
exists for the owner handle one is created (best-effort; the success case is
modelled, a failure is swallowed and leaves the database unchanged). -/
def ownerSync (db : DB) (u p : String) : DB :=
  if checkUserExist db u then db
  else { db with users := ⟨u, p, none, 0⟩ :: db.users }

/-- `user?.role || 'user'`. -/
def jsRoleOf (user : Option ConfUser) : String :=
  jsOrStr (user.bind (·.role)) "user"

/-- The database-mode branch of the login `POST` handler, translated
clause-for-clause from the route source.  Storage calls are taken to
succeed (the route's own catch of a storage error returns a 500, outside
the behaviour under verification).  Returns the outcome and the (possibly
owner-provisioned) database. -/
def loginPOST (env : Env) (conf : List ConfUser) (db : DB)
    (username password : String) (machineCode : Option String) :
    LoginOutcome × DB :=
  if username == "" then (.invalidInput "用户名不能为空", db)
  else if password == "" then (.invalidInput "密码不能为空", db)
  else if env.envUsername == some username && env.envPassword == some password then
    (.ok "owner" none none, ownerSync db username password)
  else if env.envUsername == some username then
    (.unauthorized "用户名或密码错误", db)
  else
    let user := conf.find? (·.username == username)
    if ((user.map (·.banned)).getD false) then (.unauthorized "用户被封禁", db)
    else if !(verifyUser db username password) then
      (.unauthorized "用户名或密码错误", db)
    else
      let bound := boundCodeOf db username
      if isTruthyO bound then
        if !(isTruthyO machineCode) then (.codeRequired, db)
        else if !(jsUpper (machineCode.getD "") == jsUpper (bound.getD "")) then
          (.codeMismatch, db)
        else (.ok (jsRoleOf user) (some (isTruthyO bound)) (some username), db)
      else
        if isTruthyO machineCode then
          let codeOwner := (db.machine_codes.find?
            (·.machine_code == machineCode.getD "")).map (·.username)
          if isTruthyO codeOwner && !(codeOwner.getD "" == username) then
            (.codeTaken (codeOwner.getD ""), db)
          else (.ok (jsRoleOf user) (some (isTruthyO bound)) (some username), db)
        else (.ok (jsRoleOf user) (some (isTruthyO bound)) (some username), db)

/-- `generateSignature(data, secret)`: an HMAC-SHA-256 hex digest computed
by the Web Crypto collaborator, here an injected function `hmac` taking the
message and the key. -/
def generateSignature (hmac : String → String → String) (data secret : String) : String :=
  hmac data secret

/-- The decoded auth cookie structure `authData`, field order as built by
the source: `role` always; `password` only in the include-password mode;
`username`, `signature`, `timestamp` together or not at all. -/
structure AuthData where
  role : String
  password : Option String := none
  username : Option String := none
  signature : Option String := none
  timestamp : Option Nat := none
deriving DecidableEq

/-- `generateAuthCookie` without the final encoding: builds the `authData`
object.  `envPassword` is `process.env.PASSWORD` (the signing secret);
`now` is `Date.now()`. -/
def generateAuthCookie (hmac : String → String → String) (now : Nat)
    (envPassword : Option String) (username password role : Option String)
    (includePassword : Bool) : AuthData :=
  let base : AuthData := { role := jsOrStr role "user" }
  let withPw :=
    if includePassword && isTruthyO password then { base with password := password }
    else base
  if isTruthyO username && isTruthyO envPassword then
    { withPw with
        username := username,
        signature := some (generateSignature hmac (username.getD "") (envPassword.getD "")),
        timestamp := some now }
  else withPw

/-- `JSON.stringify` of the `authData` object, fields in insertion order.
(`\x7b` and `\x7d` are the braces of the JSON object.) -/
def stringifyAuthData (ad : AuthData) : String :=
  "\x7b" ++ "\"role\":" ++ (⟨jsonQuote ad.role⟩ : String)
    ++ (match ad.password with
        | some p => ",\"password\":" ++ (⟨jsonQuote p⟩ : String)
        | none => "")
    ++ (match ad.username with
        | some u => ",\"username\":" ++ (⟨jsonQuote u⟩ : String)
        | none => "")
    ++ (match ad.signature with
        | some s => ",\"signature\":" ++ (⟨jsonQuote s⟩ : String)
        | none => "")
    ++ (match ad.timestamp with
        | some t => ",\"timestamp\":" ++ toString t
        | none => "")
    ++ "\x7d"

/-- The characters `encodeURIComponent` leaves unencoded. -/
def isUnreservedURI (c : Char) : Bool :=
  c.isAlpha || c.isDigit || ['-', '_', '.', '!', '~', '*', '\'', '(', ')'].contains c

/-- UTF-8 bytes of a code point. -/
def utf8Bytes (n : Nat) : List Nat :=
  if n < 128 then [n]
  else if n < 2048 then [192 + n / 64, 128 + n % 64]
  else if n < 65536 then [224 + n / 4096, 128 + n / 64 % 64, 128 + n % 64]
  else [240 + n / 262144, 128 + n / 4096 % 64, 128 + n / 64 % 64, 128 + n % 64]

/-- Uppercase hexadecimal digit of `n % 16`. -/
def hexUpChar (n : Nat) : Char :=
  "0123456789ABCDEF".data.getD (n % 16) '0'

/-- A percent-encoded byte: `%` plus two uppercase hex digits. -/
def pctByte (b : Nat) : List Char :=
  ['%', hexUpChar (b / 16), hexUpChar b]

/-- `encodeURIComponent` on one character. -/
def urlEncodeChar (c : Char) : List Char :=
  if isUnreservedURI c then [c] else ((utf8Bytes c.toNat).map pctByte).flatten

/-- `encodeURIComponent`. -/
def urlEncode (s : String) : String :=
  ⟨(s.data.map urlEncodeChar).flatten⟩

/-- A URL-safe character: unreserved or the percent escape lead. -/
def isUriSafeChar (c : Char) : Bool :=
  isUnreservedURI c || c == '%'

/-- The cookie value set by the handler: the URL-encoding of the stringified
`authData` object. -/
def authCookieValue (hmac : String → String → String) (now : Nat)
    (envPassword : Option String) (username password role : Option String)
    (includePassword : Bool) : String :=
  urlEncode (stringifyAuthData
    (generateAuthCookie hmac now envPassword username password role includePassword))

/-- A handle containing none of the characters that `JSON.stringify`
escapes, so that its serialized form inside a participants array is the
handle itself between quotes. -/
def cleanHandle (u : String) : Prop :=
  ∀ c ∈ u.data, c ≠ '"' ∧ c ≠ '\\'

/-- The binding-store invariant: a machine code maps to at most one handle
and a handle maps to at most one machine code. -/
def MCInv (db : DB) : Prop :=
  (∀ r1 ∈ db.machine_codes, ∀ r2 ∈ db.machine_codes,
      r1.username = r2.username → r1 = r2) ∧
  (∀ r1 ∈ db.machine_codes, ∀ r2 ∈ db.machine_codes,
      r1.machine_code = r2.machine_code → r1 = r2)

/-- Number of stored friend rows for the unordered pair of handles. -/
def pairCount (db : DB) (a b : String) : Nat :=
  db.friends.countP fun r =>
    (r.user1 == a && r.user2 == b) || (r.user1 == b && r.user2 == a)

/-- A concrete HMAC collaborator stand-in for closed evaluations. -/
def hmac0 : String → String → String := fun _ _ => "sig"

/-- A handle containing a double quote (allowed by registration, which puts
no constraint on the handle's characters). -/
def quotedHandle : String := "a\"b"

/-- A conversation whose only participant is the quoted handle. -/
def quotedConv : ConversationRow :=
  { id := "c1", name := "chat", participants := ["a\"b"] }

/-- A database holding only that conversation. -/
def dbQuoted : DB := { emptyDB with conversations := [quotedConv] }

/-- A populated database for the purge witness. -/
def dbPurgeW : DB :=
  { emptyDB with
    users := [{ username := "alice", password := "pw" }],
    conversations := [{ id := "c9", name := "chat", participants := ["alice", "bob"] }],
    friends := [{ user1 := "alice", user2 := "bob" }],
    machine_codes := [{ username := "alice", machine_code := "ABC" }] }

/-- A database with one account bound to one machine code. -/
def dbBindW : DB :=
  { emptyDB with
    users := [{ username := "alice", password := "pw" }],
    machine_codes := [{ username := "alice", machine_code := "ABC123" }] }

/-- A database where the code `CODE1` belongs to alice while bob, who will
attempt to log in with it, already holds his own binding `CODE2`. -/
def dbSelfBound : DB :=
  { emptyDB with
    users := [{ username := "bob", password := "pw" }],
    machine_codes := [{ username := "alice", machine_code := "CODE1" },
                      { username := "bob", machine_code := "CODE2" }] }

/-- A database where the code `CODE1` belongs to alice and bob is unbound. -/
def dbTakenW : DB :=
  { emptyDB with
    users := [{ username := "bob", password := "pw" }],
    machine_codes := [{ username := "alice", machine_code := "CODE1" }] }

/-- Admin config with one banned user. -/
def confBanned : List ConfUser := [{ username := "carol", banned := true }]

/-- A database in which the banned user exists with password `pw`. -/
def dbBanned : DB :=
  { emptyDB with users := [{ username := "carol", password := "pw" }] }

/-- A database where bob holds the code another handle will try to claim. -/
def dbCodeBound : DB :=
  { emptyDB with machine_codes := [{ username := "bob", machine_code := "CODE" }] }

/-- A database with one unrelated binding, for the upsert-frame witness. -/
def dbCodeW : DB :=
  { emptyDB with machine_codes := [{ username := "carol", machine_code := "OLD" }] }

/-- Concrete `Friend` arguments for the friend-edge witness. -/
def friendBob : Friend := { id := "bob", username := "bob", added_at := 5 }

/-- Concrete `Friend` arguments for the friend-edge witness. -/
def friendAlice : Friend := { id := "alice", username := "alice", added_at := 7 }

/-- `LIKE` character comparison is reflexive. -/
theorem sqlCharEq_refl (c : Char) : sqlCharEq c c = true := by
  simp [sqlCharEq]

theorem likeMatch_prepend (P : List Char) :
    ∀ Q s : List Char, likeMatch Q s = true → likeMatch (P ++ Q) (P ++ s) = true := by
  induction P with
  | nil => intro Q s h; simpa using h
  | cons c P ih =>
    intro Q s h
    rw [List.cons_append, List.cons_append]
    by_cases hc : c = '%'
    · subst hc
      simp only [likeMatch, if_true, List.any_eq_true]
      refine ⟨1, ?_, ?_⟩
      · simp [List.mem_range]
      · simpa using ih Q s h
    · simp only [likeMatch, if_neg hc, Bool.and_eq_true]
      refine ⟨?_, ih Q s h⟩
      by_cases hu : c = '_'
      · simp [hu]
      · simp [hu, sqlCharEq_refl]

theorem likeMatch_pct (v : List Char) : likeMatch ['%'] v = true := by
  simp only [likeMatch, if_true, List.any_eq_true]
  refine ⟨v.length, by simp [List.mem_range], ?_⟩
  simp [likeMatch]

theorem likeMatch_contains (P u v : List Char) :
    likeMatch ('%' :: (P ++ ['%'])) (u ++ (P ++ v)) = true := by
  simp only [likeMatch, if_true, List.any_eq_true]
  refine ⟨u.length, ?_, ?_⟩
  · simp only [List.mem_range, List.length_append]
    omega
  · have hdrop : (u ++ (P ++ v)).drop u.length = P ++ v := by
      simp [List.drop_left]
    rw [hdrop]
    exact likeMatch_prepend P ['%'] v (likeMatch_pct v)

theorem jsonEscape_of_clean (l : List Char)
    (h : ∀ c ∈ l, c ≠ '"' ∧ c ≠ '\\') : jsonEscape l = l := by
  induction l with
  | nil => rfl
  | cons c cs ih =>
    have hc := h c (by simp)
    rw [jsonEscape, jsonEscapeChar, if_neg hc.1, if_neg hc.2,
      ih (fun d hd => h d (by simp [hd]))]
    rfl

theorem jsonArrAux_mem (x : String) :
    ∀ l : List String, x ∈ l →
      ∃ u v : List Char, jsonArrAux l = u ++ (jsonQuote x ++ v) := by
  intro l
  induction l with
  | nil => intro h; simp at h
  | cons p rest ih =>
    intro hmem
    rcases List.mem_cons.mp hmem with he | ht
    · subst he
      cases rest with
      | nil => exact ⟨[], [], by simp [jsonArrAux]⟩
      | cons r rs => exact ⟨[], ',' :: jsonArrAux (r :: rs), by simp [jsonArrAux]⟩
    · cases rest with
      | nil => simp at ht
      | cons r rs =>
        obtain ⟨u, v, hv⟩ := ih ht
        exact ⟨jsonQuote p ++ (',' :: u), v, by simp [jsonArrAux, hv]⟩

theorem jsonArr_mem (x : String) (l : List String) (h : x ∈ l) :
    ∃ u v : List Char, jsonArr l = u ++ (jsonQuote x ++ v) := by
  obtain ⟨u, v, hv⟩ := jsonArrAux_mem x l h
  exact ⟨'[' :: u, v ++ [']'], by simp [jsonArr, hv]⟩

theorem strLtB_irrefl (l : List Char) : strLtB l l = false := by
  induction l with
  | nil => rfl
  | cons c a ih => simp [strLtB, ih]

theorem strLtB_asymm : ∀ a b : List Char, strLtB a b = true → strLtB b a = false := by
  intro a
  induction a with
  | nil => intro b _; cases b <;> rfl
  | cons c a ih =>
    intro b h
    cases b with
    | nil => simp [strLtB] at h
    | cons d b =>
      by_cases he : c = d
      · subst he
        simp only [strLtB, if_pos rfl] at h ⊢
        exact ih b h
      · simp only [strLtB, if_neg he, if_neg (Ne.symm he), charLtB,
          decide_eq_true_eq, decide_eq_false_iff_not] at h ⊢
        omega

theorem hexUpChar_safe (n : Nat) : isUnreservedURI (hexUpChar n) = true := by
  have h : n % 16 < 16 := Nat.mod_lt _ (by omega)
  have hall : ∀ m < 16, isUnreservedURI ("0123456789ABCDEF".data.getD m '0') = true := by
    decide
  exact hall _ h

theorem pctByte_safe (b : Nat) (c : Char) (h : c ∈ pctByte b) :
    isUriSafeChar c = true := by
  simp only [pctByte, List.mem_cons, List.not_mem_nil, or_false] at h
  rcases h with h | h | h
  · subst h; rfl
  · subst h; simp [isUriSafeChar, hexUpChar_safe]
  · subst h; simp [isUriSafeChar, hexUpChar_safe]

theorem urlEncodeChar_safe (c : Char) (d : Char) (h : d ∈ urlEncodeChar c) :
    isUriSafeChar d = true := by
  by_cases hc : isUnreservedURI c
  · simp only [urlEncodeChar, if_pos hc, List.mem_singleton] at h
    subst h
    simp [isUriSafeChar, hc]
  · simp only [urlEncodeChar, if_neg hc, List.mem_flatten] at h
    obtain ⟨l, hl, hd⟩ := h
    obtain ⟨b, _, hb⟩ := List.mem_map.mp hl
    exact pctByte_safe b d (hb ▸ hd)

/-- Every character of an `encodeURIComponent` output is URL-safe. -/
theorem urlEncode_safe (s : String) (d : Char) (h : d ∈ (urlEncode s).data) :
    isUriSafeChar d = true := by
  simp only [urlEncode, List.mem_flatten] at h
  obtain ⟨l, hl, hd⟩ := h
  obtain ⟨c, _, hc⟩ := List.mem_map.mp hl
  exact urlEncodeChar_safe c d (hc ▸ hd)

/-- Claim C5: deleting conversation `C` removes all of `C`'s messages and
the conversation row itself as one all-or-nothing batch (a failed batch
leaves the database untouched, a successful one applies both removals), and
a subsequent point read of `C` returns null, not a partial object. -/
theorem deleteConversation_atomic_cascade (db : DB) (cid : String) :
    deleteConversation cid db false = db
    ∧ (∀ m ∈ (deleteConversation cid db true).messages, m.conversation_id ≠ cid)
    ∧ (∀ c ∈ (deleteConversation cid db true).conversations, c.id ≠ cid)
    ∧ getConversation true (deleteConversation cid db true) cid = .ok none := by
  refine ⟨rfl, ?_, ?_, ?_⟩
  · intro m hm
    have hm' : m ∈ db.messages.filter (fun m => !(m.conversation_id == cid)) := hm
    simpa using (List.mem_filter.mp hm').2
  · intro c hc
    have hc' : c ∈ db.conversations.filter (fun c => !(c.id == cid)) := hc
    simpa using (List.mem_filter.mp hc').2
  · have h : (deleteConversation cid db true).conversations.find? (·.id == cid) = none := by
      rw [List.find?_eq_none]
      intro c hc
      have hc' : c ∈ db.conversations.filter (fun c => !(c.id == cid)) := hc
      simpa using (List.mem_filter.mp hc').2
    simp [getConversation, h]

/-- Claim C6: `saveMessage` can never execute its INSERT — the SQL names
eight columns but supplies six placeholders (while the bind call passes
eight values) — so every call raises a storage error and no message is ever
persisted through this operation. -/
theorem saveMessage_always_fails (db : DB) (m : MessageRow) :
    saveMessage db m = .error .failure
    ∧ placeholderCount saveMessageSQL = 6
    ∧ messagesInsertColumns.length = 8
    ∧ (saveMessageBinds m).length = 8 := by
  have h : ¬ (placeholderCount saveMessageSQL = messagesInsertColumns.length) := by decide
  exact ⟨by simp [saveMessage, h], by decide, by decide, rfl⟩

/-- Claim C9 (amended): on a storage failure the best-effort reads — friends
list, conversations list, user search, machine-code lookups, and paged
messages — degrade to an empty or null result instead of failing the
caller.  (The avatar lookup is the exception; see the counterexample.) -/
theorem best_effort_reads_degrade (db : DB) (u q c cid : String)
    (limit offset : Nat) :
    getFriends false db u = .ok []
    ∧ getConversations false db u = .ok []
    ∧ searchUsers false db q = .ok []
    ∧ getUserMachineCode false db u = .ok none
    ∧ isMachineCodeBound false db c = .ok none
    ∧ getMessages false db cid limit offset = .ok [] :=
  ⟨rfl, rfl, rfl, rfl, rfl, rfl⟩

/-- Claim C9 counterexample: the avatar lookup does NOT degrade to a neutral
result on a storage failure — `getUserAvatar` rethrows the caught error, so
the claim's inclusion of the avatar lookup among the degrading reads is
false. -/
theorem getUserAvatar_propagates_failure :
    getUserAvatar false emptyDB "alice" = .error .failure
    ∧ (Except.error StorageErr.failure
        ≠ (Except.ok none : Except StorageErr (Option String))) :=
  ⟨rfl, fun h => Except.noConfusion h⟩

/-- Claim C10 (amended): `setUserMachineCode` is an upsert that binds the
handle to the code, leaves every row with a different handle AND a different
code unchanged, removes only rows conflicting on the handle key or on the
code uniqueness constraint (SQLite `REPLACE` deletes the other handle's row
when it holds the same code), and preserves the one-to-one binding
invariant. -/
theorem setUserMachineCode_upsert_frame (db : DB) (u c info : String) (t : Nat)
    (h : MCInv db) :
    getUserMachineCode true (setUserMachineCode db u c info t) u = .ok (some c)
    ∧ (∀ r ∈ db.machine_codes, r.username ≠ u → r.machine_code ≠ c →
        r ∈ (setUserMachineCode db u c info t).machine_codes)
    ∧ (∀ r ∈ (setUserMachineCode db u c info t).machine_codes,
        r = ⟨u, c, info, t⟩ ∨
          (r ∈ db.machine_codes ∧ r.username ≠ u ∧ r.machine_code ≠ c))
    ∧ MCInv (setUserMachineCode db u c info t) := by
  have hchar : ∀ r ∈ (setUserMachineCode db u c info t).machine_codes,
      r = ⟨u, c, info, t⟩ ∨
        (r ∈ db.machine_codes ∧ r.username ≠ u ∧ r.machine_code ≠ c) := by
    intro r hr
    rcases List.mem_cons.mp hr with he | ht
    · exact Or.inl he
    · have h2 := List.mem_filter.mp ht
      have h3 : r.username ≠ u ∧ r.machine_code ≠ c := by simpa using h2.2
      exact Or.inr ⟨h2.1, h3.1, h3.2⟩
  refine ⟨?_, ?_, hchar, ?_, ?_⟩
  · simp [getUserMachineCode, setUserMachineCode, List.find?]
  · intro r hr hru hrc
    refine List.mem_cons_of_mem _ (List.mem_filter.mpr ⟨hr, ?_⟩)
    simp [hru, hrc]
  · intro r1 h1 r2 h2 heq
    rcases hchar r1 h1 with e1 | ⟨m1, hu1, _⟩ <;>
      rcases hchar r2 h2 with e2 | ⟨m2, hu2, _⟩
    · rw [e1, e2]
    · rw [e1] at heq; exact absurd heq.symm hu2
    · rw [e2] at heq; exact absurd heq hu1
    · exact h.1 r1 m1 r2 m2 heq
  · intro r1 h1 r2 h2 heq
    rcases hchar r1 h1 with e1 | ⟨m1, _, hc1⟩ <;>
      rcases hchar r2 h2 with e2 | ⟨m2, _, hc2⟩
    · rw [e1, e2]
    · rw [e1] at heq; exact absurd heq.symm hc2
    · rw [e2] at heq; exact absurd heq hc1
    · exact h.2 r1 m1 r2 m2 heq

/-- Claim C10 witness: the upsert theorem applied to a concrete store
holding one unrelated binding. -/
theorem setUserMachineCode_upsert_frame_witness :
    getUserMachineCode true (setUserMachineCode dbCodeW "alice" "NEW" "" 5) "alice"
      = .ok (some "NEW")
    ∧ ({ username := "carol", machine_code := "OLD" } : MachineCodeRow)
        ∈ (setUserMachineCode dbCodeW "alice" "NEW" "" 5).machine_codes := by
  have h := setUserMachineCode_upsert_frame dbCodeW "alice" "NEW" "" 5
    ⟨by decide, by decide⟩
  exact ⟨h.1, h.2.1 { username := "carol", machine_code := "OLD" }
    (by decide) (by decide) (by decide)⟩

/-- Claim C10 counterexample: the claim's frame clause — every other
handle's binding row is left unchanged — is false: upserting alice to the
code already held by bob deletes bob's row (the `REPLACE` needed to keep the
code-uniqueness constraint). -/
theorem setUserMachineCode_evicts_other_row :
    (setUserMachineCode dbCodeBound "alice" "CODE" "" 1).machine_codes
      = [{ username := "alice", machine_code := "CODE", device_info := "", bind_time := 1 }]
    ∧ ({ username := "bob", machine_code := "CODE" } : MachineCodeRow)
        ∉ (setUserMachineCode dbCodeBound "alice" "CODE" "" 1).machine_codes
    ∧ ({ username := "bob", machine_code := "CODE" } : MachineCodeRow)
        ∈ dbCodeBound.machine_codes := by
  decide

theorem countP_filter_zero {α} (l : List α) (p q : α → Bool)
    (h : l.countP p = 0) : (l.filter q).countP p = 0 := by
  rw [List.countP_eq_zero] at h ⊢
  intro a ha
  exact h a (List.mem_filter.mp ha).1

theorem pair_filter_count (l : List FriendRow) (A B : String)
    (hrev : l.countP (fun r => r.user1 == B && r.user2 == A) = 0) :
    (l.filter fun r => !(r.user1 == A && r.user2 == B)).countP
      (fun r => (r.user1 == A && r.user2 == B) || (r.user1 == B && r.user2 == A)) = 0 := by
  rw [List.countP_eq_zero]
  intro r hr
  have hmem := List.mem_filter.mp hr
  have hnk : ¬ (r.user1 = A ∧ r.user2 = B) := by
    have h2 := hmem.2
    simp only [Bool.not_eq_true', Bool.and_eq_false_iff, beq_eq_false_iff_ne] at h2
    rintro ⟨ha, hb⟩
    rcases h2 with h2 | h2 <;> exact h2 (by assumption)
  have hnr : ¬ (r.user1 = B ∧ r.user2 = A) := by
    have := (List.countP_eq_zero.mp hrev) r hmem.1
    simpa using this
  simp only [Bool.or_eq_true, Bool.and_eq_true, beq_iff_eq]
  rintro (h | h) <;> [exact hnk h; exact hnr h]

theorem jsSortPair_lt (A B : String) (hlt : strLtB A.data B.data = true) :
    jsSortPair A B = (A, B) ∧ jsSortPair B A = (A, B) := by
  have hns : strLtB B.data A.data = false := strLtB_asymm _ _ hlt
  constructor
  · simp [jsSortPair, hns]
  · simp [jsSortPair, hlt]

theorem strLtB_ne (A B : String) (hlt : strLtB A.data B.data = true) : A ≠ B := by
  intro h
  rw [h, strLtB_irrefl] at hlt
  exact Bool.noConfusion hlt

/-- Claim C4: for handles `A < B` (code-unit order), adding a friend edge in
either argument order produces exactly one stored row for the unordered
pair, keyed `(A, B)` with the smaller handle first, and re-adding the pair
(in either order) still leaves exactly one row.  The hypothesis that no
reversed `(B, A)` row pre-exists is the store's canonical-ordering
invariant, which `addFriend` itself maintains. -/
theorem addFriend_canonical_single_row (db : DB) (A B : String) (f g : Friend)
    (hlt : strLtB A.data B.data = true)
    (hf : f.username = B) (hg : g.username = A)
    (hrev : db.friends.countP (fun r => r.user1 == B && r.user2 == A) = 0) :
    pairCount (addFriend db A f) A B = 1
    ∧ (addFriend db A f).friends.head? = some ⟨A, B, "accepted", f.added_at⟩
    ∧ pairCount (addFriend db B g) A B = 1
    ∧ (addFriend db B g).friends.head? = some ⟨A, B, "accepted", g.added_at⟩
    ∧ pairCount (addFriend (addFriend db A f) B g) A B = 1
    ∧ pairCount (addFriend (addFriend db A f) A f) A B = 1 := by
  obtain ⟨hAB1, hAB2⟩ := jsSortPair_lt A B hlt
  have hne := strLtB_ne A B hlt
  have hfr1 : (addFriend db A f).friends =
      ⟨A, B, "accepted", f.added_at⟩ ::
        db.friends.filter (fun r => !(r.user1 == A && r.user2 == B)) := by
    simp [addFriend, hf, hAB1]
  have hfr2 : (addFriend db B g).friends =
      ⟨A, B, "accepted", g.added_at⟩ ::
        db.friends.filter (fun r => !(r.user1 == A && r.user2 == B)) := by
    simp [addFriend, hg, hAB2]
  have hkey : ((FriendRow.mk A B "accepted" f.added_at).user1 == A
      && (FriendRow.mk A B "accepted" f.added_at).user2 == B) = true := by simp
  have hcount : ∀ t : Nat,
      (FriendRow.mk A B "accepted" t ::
        db.friends.filter (fun r => !(r.user1 == A && r.user2 == B))).countP
        (fun r => (r.user1 == A && r.user2 == B) || (r.user1 == B && r.user2 == A)) = 1 := by
    intro t
    rw [List.countP_cons, pair_filter_count db.friends A B hrev]
    simp
  have hrev1 : (addFriend db A f).friends.countP
      (fun r => r.user1 == B && r.user2 == A) = 0 := by
    rw [hfr1, List.countP_cons, countP_filter_zero _ _ _ hrev]
    simp [Ne.symm hne]
  have hfr3 : (addFriend (addFriend db A f) B g).friends =
      ⟨A, B, "accepted", g.added_at⟩ ::
        (addFriend db A f).friends.filter (fun r => !(r.user1 == A && r.user2 == B)) := by
    simp [addFriend, hg, hAB2]
  have hfr4 : (addFriend (addFriend db A f) A f).friends =
      ⟨A, B, "accepted", f.added_at⟩ ::
        (addFriend db A f).friends.filter (fun r => !(r.user1 == A && r.user2 == B)) := by
    simp [addFriend, hf, hAB1]
  refine ⟨?_, ?_, ?_, ?_, ?_, ?_⟩
  · rw [pairCount, hfr1]; exact hcount f.added_at
  · rw [hfr1]; rfl
  · rw [pairCount, hfr2]; exact hcount g.added_at
  · rw [hfr2]; rfl
  · rw [pairCount, hfr3, List.countP_cons,
      pair_filter_count (addFriend db A f).friends A B hrev1]
    simp
  · rw [pairCount, hfr4, List.countP_cons,
      pair_filter_count (addFriend db A f).friends A B hrev1]
    simp

/-- Claim C4 witness: the canonical-edge theorem applied to concrete
handles alice and bob on the empty store. -/
theorem addFriend_canonical_single_row_witness :
    pairCount (addFriend emptyDB "alice" friendBob) "alice" "bob" = 1
    ∧ (addFriend emptyDB "bob" friendAlice).friends.head?
        = some ⟨"alice", "bob", "accepted", 7⟩
    ∧ pairCount (addFriend (addFriend emptyDB "alice" friendBob) "bob" friendAlice)
        "alice" "bob" = 1 := by
  have h := addFriend_canonical_single_row emptyDB "alice" "bob" friendBob friendAlice
    (by decide) (by decide) (by decide) (by decide)
  exact ⟨h.1, h.2.2.2.1, h.2.2.2.2.1⟩

/-- A clean handle that is a participant makes the conversation match the
`LIKE` pattern `%"handle"%` against the serialized participants column. -/
theorem convPattern_matches (u : String) (hu : cleanHandle u)
    (parts : List String) (hmem : u ∈ parts) :
    likeMatch (convPattern u) (jsonArr parts) = true := by
  obtain ⟨x, v, hv⟩ := jsonArr_mem u parts hmem
  have hq : jsonQuote u = '"' :: (u.data ++ ['"']) := by
    rw [jsonQuote, jsonEscape_of_clean u.data hu]
  rw [hv, hq]
  exact likeMatch_contains ('"' :: (u.data ++ ['"'])) x v

/-- Claim C1 (amended, restricted to handles free of JSON-escaped
characters): `deleteUser` is one all-or-nothing batch (a failed batch
changes nothing) whose success removes the account row, all play records,
favorites, search history and skip configs of the handle, its device
binding, every conversation whose participant set contains the handle,
every message authored by the handle (`sender_name`), and every friend edge
and friend request naming it in either role; afterwards the existence check
returns false and friend/conversation queries for the handle return empty
results. -/
theorem deleteUser_purges_all_handle_data (db : DB) (u : String)
    (hu : cleanHandle u) :
    deleteUser u db false = db
    ∧ checkUserExist (deleteUser u db true) u = false
    ∧ (∀ r ∈ (deleteUser u db true).users, r.username ≠ u)
    ∧ (∀ r ∈ (deleteUser u db true).play_records, r.username ≠ u)
    ∧ (∀ r ∈ (deleteUser u db true).favorites, r.username ≠ u)
    ∧ (∀ r ∈ (deleteUser u db true).search_history, r.username ≠ u)
    ∧ (∀ r ∈ (deleteUser u db true).skip_configs, r.username ≠ u)
    ∧ getUserMachineCode true (deleteUser u db true) u = .ok none
    ∧ (∀ c ∈ (deleteUser u db true).conversations, u ∉ c.participants)
    ∧ (∀ m ∈ (deleteUser u db true).messages, m.sender_name ≠ u)
    ∧ (∀ fr ∈ (deleteUser u db true).friends, fr.user1 ≠ u ∧ fr.user2 ≠ u)
    ∧ (∀ rq ∈ (deleteUser u db true).friend_requests,
        rq.from_user ≠ u ∧ rq.to_user ≠ u)
    ∧ getFriends true (deleteUser u db true) u = .ok []
    ∧ getConversations true (deleteUser u db true) u = .ok [] := by
  have husers : (deleteUser u db true).users
      = db.users.filter (fun r => !(r.username == u)) := rfl
  have hplay : (deleteUser u db true).play_records
      = db.play_records.filter (fun r => !(r.username == u)) := rfl
  have hfav : (deleteUser u db true).favorites
      = db.favorites.filter (fun r => !(r.username == u)) := rfl
  have hsh : (deleteUser u db true).search_history
      = db.search_history.filter (fun r => !(r.username == u)) := rfl
  have hskip : (deleteUser u db true).skip_configs
      = db.skip_configs.filter (fun r => !(r.username == u)) := rfl
  have hmc : (deleteUser u db true).machine_codes
      = db.machine_codes.filter (fun r => !(r.username == u)) := rfl
  have hconv : (deleteUser u db true).conversations
      = db.conversations.filter
          (fun c => !(likeMatch (convPattern u) (jsonArr c.participants))) := rfl
  have hmsg : (deleteUser u db true).messages
      = db.messages.filter (fun m => !(m.sender_name == u)) := rfl
  have hfrd : (deleteUser u db true).friends
      = db.friends.filter (fun r => !(r.user1 == u || r.user2 == u)) := rfl
  have hreq : (deleteUser u db true).friend_requests
      = db.friend_requests.filter
          (fun r => !(r.from_user == u || r.to_user == u)) := rfl
  refine ⟨rfl, ?_, ?_, ?_, ?_, ?_, ?_, ?_, ?_, ?_, ?_, ?_, ?_, ?_⟩
  · rw [checkUserExist, husers, List.any_eq_false]
    intro r hr
    simpa using (List.mem_filter.mp hr).2
  · intro r hr; rw [husers] at hr; simpa using (List.mem_filter.mp hr).2
  · intro r hr; rw [hplay] at hr; simpa using (List.mem_filter.mp hr).2
  · intro r hr; rw [hfav] at hr; simpa using (List.mem_filter.mp hr).2
  · intro r hr; rw [hsh] at hr; simpa using (List.mem_filter.mp hr).2
  · intro r hr; rw [hskip] at hr; simpa using (List.mem_filter.mp hr).2
  · have hn : (deleteUser u db true).machine_codes.find? (·.username == u) = none := by
      rw [List.find?_eq_none]
      intro r hr
      rw [hmc] at hr
      simpa using (List.mem_filter.mp hr).2
    simp [getUserMachineCode, hn]
  · intro c hc hmem
    rw [hconv] at hc
    have h2 := (List.mem_filter.mp hc).2
    rw [convPattern_matches u hu c.participants hmem] at h2
    exact Bool.noConfusion h2
  · intro m hm; rw [hmsg] at hm; simpa using (List.mem_filter.mp hm).2
  · intro fr hfr
    rw [hfrd] at hfr
    have h2 := (List.mem_filter.mp hfr).2
    simp only [Bool.not_eq_true', Bool.or_eq_false_iff, beq_eq_false_iff_ne] at h2
    exact h2
  · intro rq hrq
    rw [hreq] at hrq
    have h2 := (List.mem_filter.mp hrq).2
    simp only [Bool.not_eq_true', Bool.or_eq_false_iff, beq_eq_false_iff_ne] at h2
    exact h2
  · have hn : (deleteUser u db true).friends.filter
        (fun r => (r.user1 == u || r.user2 == u) && r.status == "accepted") = [] := by
      rw [List.filter_eq_nil_iff]
      intro r hr
      rw [hfrd] at hr
      have h2 := (List.mem_filter.mp hr).2
      simp only [Bool.not_eq_true', Bool.or_eq_false_iff] at h2
      simp [h2.1, h2.2]
    simp [getFriends, hn]
  · have hn : (deleteUser u db true).conversations.filter
        (fun c => likeMatch (convPattern u) (jsonArr c.participants)) = [] := by
      rw [List.filter_eq_nil_iff]
      intro c hc
      rw [hconv] at hc
      simpa using (List.mem_filter.mp hc).2
    simp [getConversations, hn, sortByDesc]

/-- Claim C1 witness: the purge theorem at a concrete database holding an
account, a conversation, a friend edge and a device binding for alice. -/
theorem deleteUser_purges_all_handle_data_witness :
    cleanHandle "alice"
    ∧ checkUserExist (deleteUser "alice" dbPurgeW true) "alice" = false
    ∧ getConversations true (deleteUser "alice" dbPurgeW true) "alice" = .ok []
    ∧ getFriends true (deleteUser "alice" dbPurgeW true) "alice" = .ok [] := by
  have hcl : cleanHandle "alice" := by unfold cleanHandle; decide
  have h := deleteUser_purges_all_handle_data dbPurgeW "alice" hcl
  exact ⟨hcl, h.2.1, h.2.2.2.2.2.2.2.2.2.2.2.2.2, h.2.2.2.2.2.2.2.2.2.2.2.2.1⟩

/-- Claim C1 counterexample: for the handle `a"b` — whose serialized JSON
form is escaped while the `LIKE` bind pattern embeds the handle raw — the
purge does NOT remove a conversation whose participant set contains the
handle: the conversation survives the batch even though the handle is a
participant.  So the claim, quantified over every handle, is false. -/
theorem deleteUser_misses_quoted_handle_conversation :
    (deleteUser quotedHandle dbQuoted true).conversations = [quotedConv]
    ∧ quotedHandle ∈ quotedConv.participants := by
  decide

/-- Claim C2: the login-time device-binding state machine.  For a handle
with an existing (truthy) binding: no supplied code is rejected with the
code-required signal; a supplied code differing under ASCII
case-insensitive comparison is rejected with the mismatch signal; a
case-insensitively matching code proceeds (reporting `machineCodeBound =
true`).  For a handle with no binding and no supplied code, login proceeds
unbound (`machineCodeBound = false`).  Hypotheses place the request on the
ordinary verified-password path: non-empty fields, not the owner handle,
not banned, password verified. -/
theorem login_device_binding_states (env : Env) (conf : List ConfUser) (db : DB)
    (username password : String) (machineCode : Option String)
    (hu : username ≠ "") (hp : password ≠ "")
    (ho : env.envUsername ≠ some username)
    (hb : ((conf.find? (·.username == username)).map (·.banned)).getD false = false)
    (hv : verifyUser db username password = true) :
    (isTruthyO (boundCodeOf db username) = true → isTruthyO machineCode = false →
      loginPOST env conf db username password machineCode = (.codeRequired, db))
    ∧ (isTruthyO (boundCodeOf db username) = true → isTruthyO machineCode = true →
      jsUpper (machineCode.getD "") ≠ jsUpper ((boundCodeOf db username).getD "") →
      loginPOST env conf db username password machineCode = (.codeMismatch, db))
    ∧ (isTruthyO (boundCodeOf db username) = true → isTruthyO machineCode = true →
      jsUpper (machineCode.getD "") = jsUpper ((boundCodeOf db username).getD "") →
      loginPOST env conf db username password machineCode =
        (.ok (jsRoleOf (conf.find? (·.username == username))) (some true) (some username), db))
    ∧ (isTruthyO (boundCodeOf db username) = false → machineCode = none →
      loginPOST env conf db username password machineCode =
        (.ok (jsRoleOf (conf.find? (·.username == username))) (some false) (some username), db)) := by
  have h1 : (username == "") = false := beq_eq_false_iff_ne.mpr hu
  have h2 : (password == "") = false := beq_eq_false_iff_ne.mpr hp
  have h3 : (env.envUsername == some username) = false := beq_eq_false_iff_ne.mpr ho
  refine ⟨?_, ?_, ?_, ?_⟩
  · intro hbound hmcf
    simp [loginPOST, h1, h2, h3, hb, hv, hbound, hmcf]
  · intro hbound hmct hne
    simp [loginPOST, h1, h2, h3, hb, hv, hbound, hmct, hne]
  · intro hbound hmct heq
    simp [loginPOST, h1, h2, h3, hb, hv, hbound, hmct, heq]
  · intro hbound hmcn
    subst hmcn
    have hnone : isTruthyO none = false := rfl
    simp [loginPOST, h1, h2, h3, hb, hv, hbound, hnone]

/-- Claim C2 witness: the binding state machine at a concrete store where
alice is bound to `ABC123`: login with the case-variant `abc123` proceeds
with `machineCodeBound = true`, and login without a code is rejected with
the code-required signal. -/
theorem login_device_binding_states_witness :
    loginPOST {} [] dbBindW "alice" "pw" (some "abc123")
      = (.ok "user" (some true) (some "alice"), dbBindW)
    ∧ loginPOST {} [] dbBindW "alice" "pw" none = (.codeRequired, dbBindW) := by
  have h := login_device_binding_states {} [] dbBindW "alice" "pw" (some "abc123")
    (by decide) (by decide) (by decide) (by decide) (by decide)
  have h' := login_device_binding_states {} [] dbBindW "alice" "pw" none
    (by decide) (by decide) (by decide) (by decide) (by decide)
  exact ⟨h.2.2.1 (by decide) (by decide) (by decide), h'.1 (by decide) (by decide)⟩

/-- Claim C3 (amended): if machine code `C` is bound to handle `A`, then a
login by a different, ordinary handle `B` — password verified, not the
owner handle, not banned, and itself holding no binding — that supplies `C`
fails with the conflict result naming `A`, and the database (in particular
`A`'s binding row) is unchanged by the attempt. -/
theorem login_code_taken_conflict (env : Env) (conf : List ConfUser) (db : DB)
    (username password code owner : String)
    (hu : username ≠ "") (hp : password ≠ "")
    (ho : env.envUsername ≠ some username)
    (hb : ((conf.find? (·.username == username)).map (·.banned)).getD false = false)
    (hv : verifyUser db username password = true)
    (hnb : isTruthyO (boundCodeOf db username) = false)
    (hc : code ≠ "")
    (hown : (db.machine_codes.find? (·.machine_code == code)).map (·.username)
      = some owner)
    (hot : owner ≠ "") (hne : owner ≠ username) :
    loginPOST env conf db username password (some code) = (.codeTaken owner, db) := by
  have h1 : (username == "") = false := beq_eq_false_iff_ne.mpr hu
  have h2 : (password == "") = false := beq_eq_false_iff_ne.mpr hp
  have h3 : (env.envUsername == some username) = false := beq_eq_false_iff_ne.mpr ho
  have hct : isTruthyO (some code) = true := by simp [isTruthyO, hc]
  have hot' : isTruthyO (some owner) = true := by simp [isTruthyO, hot]
  have hne' : (owner == username) = false := beq_eq_false_iff_ne.mpr hne
  simp [loginPOST, h1, h2, h3, hb, hv, hnb, hct, hown, hot', hne']

/-- Claim C3 witness: the conflict theorem at a concrete store where alice
holds `CODE1` and unbound bob supplies it. -/
theorem login_code_taken_conflict_witness :
    loginPOST {} [] dbTakenW "bob" "pw" (some "CODE1")
      = (.codeTaken "alice", dbTakenW) := by
  exact login_code_taken_conflict {} [] dbTakenW "bob" "pw" "CODE1" "alice"
    (by decide) (by decide) (by decide) (by decide) (by decide) (by decide)
    (by decide) (by decide) (by decide) (by decide)

/-- Claim C3 counterexample: the claim as stated quantifies over every
handle `B ≠ A`; when `B` itself holds a different binding, the attempt with
`A`'s code fails with the mismatch signal, not with the conflict result
naming `A` — so the stated claim is false. -/
theorem login_code_taken_not_signalled_for_bound_user :
    (loginPOST {} [] dbSelfBound "bob" "pw" (some "CODE1")).1 = .codeMismatch
    ∧ (LoginOutcome.codeMismatch ≠ .codeTaken "alice")
    ∧ boundCodeOf dbSelfBound "bob" = some "CODE2"
    ∧ (dbSelfBound.machine_codes.find? (·.machine_code == "CODE1")).map (·.username)
        = some "alice"
    ∧ verifyUser dbSelfBound "bob" "pw" = true := by
  decide

/-- Claim C8 (amended): for any ordinary handle — not the configured owner
identity and not banned in the admin config — a login naming a handle with
no account row and a login naming an existing handle with a wrong password
produce the identical outward failure: the same generic
invalid-credentials message with the same 401 status class, so the
response does not reveal whether the handle exists. -/
theorem login_invalid_credentials_uniform (env : Env) (conf : List ConfUser)
    (db : DB) (username password : String) (machineCode : Option String)
    (hu : username ≠ "") (hp : password ≠ "")
    (ho : env.envUsername ≠ some username)
    (hb : ((conf.find? (·.username == username)).map (·.banned)).getD false = false) :
    (db.users.find? (·.username == username) = none →
      loginPOST env conf db username password machineCode
        = (.unauthorized "用户名或密码错误", db))
    ∧ (∀ r, db.users.find? (·.username == username) = some r →
        r.password ≠ password →
        loginPOST env conf db username password machineCode
          = (.unauthorized "用户名或密码错误", db)) := by
  have h1 : (username == "") = false := beq_eq_false_iff_ne.mpr hu
  have h2 : (password == "") = false := beq_eq_false_iff_ne.mpr hp
  have h3 : (env.envUsername == some username) = false := beq_eq_false_iff_ne.mpr ho
  constructor
  · intro hfind
    have hv : verifyUser db username password = false := by
      rw [verifyUser, hfind]
    simp [loginPOST, h1, h2, h3, hb, hv]
  · intro r hfind hpw
    have hv : verifyUser db username password = false := by
      rw [verifyUser, hfind]
      exact beq_eq_false_iff_ne.mpr hpw
    simp [loginPOST, h1, h2, h3, hb, hv]

/-- Claim C8 witness: at a concrete store holding only alice, the
nonexistent handle `mallory` and the existing handle `alice` with a wrong
password receive the identical generic failure. -/
theorem login_invalid_credentials_uniform_witness :
    loginPOST {} [] dbBindW "mallory" "x" none
      = (.unauthorized "用户名或密码错误", dbBindW)
    ∧ loginPOST {} [] dbBindW "alice" "wrong" none
      = (.unauthorized "用户名或密码错误", dbBindW) := by
  have h1 := login_invalid_credentials_uniform {} [] dbBindW "mallory" "x" none
    (by decide) (by decide) (by decide) (by decide)
  have h2 := login_invalid_credentials_uniform {} [] dbBindW "alice" "wrong" none
    (by decide) (by decide) (by decide) (by decide)
  exact ⟨h1.1 (by decide),
    h2.2 { username := "alice", password := "pw" } (by decide) (by decide)⟩

/-- Claim C8 counterexample: the claim as stated covers every existing
handle with a wrong password, but a banned handle's wrong-password attempt
is rejected with the distinct banned message, not the generic
invalid-credentials signal — the two failures are not identical. -/
theorem banned_login_distinct_failure :
    (loginPOST {} confBanned dbBanned "dave" "x" none).1
      = .unauthorized "用户名或密码错误"
    ∧ (loginPOST {} confBanned dbBanned "carol" "wrong" none).1
      = .unauthorized "用户被封禁"
    ∧ (LoginOutcome.unauthorized "用户名或密码错误"
        ≠ .unauthorized "用户被封禁")
    ∧ checkUserExist dbBanned "dave" = false
    ∧ checkUserExist dbBanned "carol" = true := by
  decide

/-- Claim C7 (amended): the issued credential is the URL-safe encoding of a
structure that always carries the role; the handle, the signature, and the
issuance timestamp are included exactly when a handle is known AND the
server's shared secret (`process.env.PASSWORD`) is set and non-empty; and
the signature is the keyed HMAC-SHA-256 digest computed over the handle
with that secret.  Every character of the issued cookie value is
URL-safe. -/
theorem generateAuthCookie_fields (hmac : String → String → String) (now : Nat)
    (envPassword username password role : Option String) (includePassword : Bool) :
    (generateAuthCookie hmac now envPassword username password role includePassword).role
      = jsOrStr role "user"
    ∧ (generateAuthCookie hmac now envPassword username password role includePassword).username
      = (if isTruthyO username && isTruthyO envPassword then username else none)
    ∧ (generateAuthCookie hmac now envPassword username password role includePassword).signature
      = (if isTruthyO username && isTruthyO envPassword then
          some (hmac (username.getD "") (envPassword.getD "")) else none)
    ∧ (generateAuthCookie hmac now envPassword username password role includePassword).timestamp
      = (if isTruthyO username && isTruthyO envPassword then some now else none)
    ∧ authCookieValue hmac now envPassword username password role includePassword
      = urlEncode (stringifyAuthData
          (generateAuthCookie hmac now envPassword username password role includePassword))
    ∧ (∀ c ∈ (authCookieValue hmac now envPassword username password role
        includePassword).data, isUriSafeChar c = true) := by
  refine ⟨?_, ?_, ?_, ?_, rfl, fun c hc => urlEncode_safe _ c hc⟩ <;>
    by_cases h1 : (isTruthyO username && isTruthyO envPassword) = true <;>
      by_cases h2 : (includePassword && isTruthyO password) = true <;>
        simp [generateAuthCookie, generateSignature, h1, h2]

/-- Claim C7 counterexample: the claim ties the handle, signature and
timestamp fields to a known handle alone, but with the server secret unset
the structure omits all three even though the handle is known — so the
"exactly when a handle is known" claim is false. -/
theorem generateAuthCookie_handle_without_secret :
    isTruthyO (some "alice") = true
    ∧ (generateAuthCookie hmac0 0 none (some "alice") (some "pw") (some "user")
        false).username = none
    ∧ (generateAuthCookie hmac0 0 none (some "alice") (some "pw") (some "user")
        false).signature = none
    ∧ (generateAuthCookie hmac0 0 none (some "alice") (some "pw") (some "user")
        false).timestamp = none := by
  decide

end LemonTV
